import Mathlib

/-!
Verification of the samp-log-core log pipeline (`src/LogManager.cpp`).

The development shallowly embeds the relevant parts of the source:

* the per-entry formatting and routing performed by `LogManager::Process`
  (lines 191-296): call-info rendering, the per-module file line, the
  per-log-level aggregate line, console gating and colorized console output;
* the lazy folder creation with memoization (lines 210-221, `CreateFolder`);
* the bracket-stripping of the configured time format in the constructor
  (lines 124-136);
* the logger registration map (`RegisterLogger` / `UnregisterLogger`,
  lines 164-180);
* the producer/consumer queue discipline (`QueueLogMessage`, `Process`,
  the destructor) as an interleaving transition system.
-/

namespace SampLogCore

/-- `samplog::LogLevel`, the severity enumeration. -/
inductive LogLevel where
  | DEBUG
  | INFO
  | WARNING
  | ERROR
  | FATAL
  | VERBOSE
deriving DecidableEq, Repr

/-- `GetLogLevelAsString` (LogManager.cpp lines 28-46). -/
def GetLogLevelAsString : LogLevel → String
  | .DEBUG => "DEBUG"
  | .INFO => "INFO"
  | .WARNING => "WARNING"
  | .ERROR => "ERROR"
  | .FATAL => "FATAL"
  | .VERBOSE => "VERBOSE"

/-- One frame of `msg->call_info`: a source file name and a line number. -/
structure CallInfo where
  file : String
  line : Int
deriving DecidableEq, Repr

/-- A queued log message (`Message_t`): module name, level, text, call info.
The timestamp is kept abstract as its already-rendered string, since
rendering it goes through the C time library (`fmt::localtime`). -/
structure Message where
  log_module : String
  loglevel : LogLevel
  text : String
  call_info : List CallInfo
deriving DecidableEq, Repr

/-- The `"{:s}:{:d}"` rendering of one call-info frame
(LogManager.cpp line 78). -/
def callInfoFrame (ci : CallInfo) : String :=
  ci.file ++ ":" ++ toString ci.line

/-- The body of the loop in `WriteCallInfoString` (lines 74-80): appends
`" -> "` before every frame except the first, then the frame itself.
State is (accumulated string, `first` flag). -/
def writeCallInfoLoop (acc : String × Bool) (ci : CallInfo) : String × Bool :=
  ((acc.1 ++ (if acc.2 then "" else " -> ")) ++ callInfoFrame ci, false)

/-- `WriteCallInfoString` (LogManager.cpp lines 68-83): if `call_info` is
non-empty, append `" ("`, the frames joined by `" -> "`, and `")"` to the
log string. Returns only the appended suffix. -/
def WriteCallInfoString (call_info : List CallInfo) : String :=
  if call_info.isEmpty then ""
  else " (" ++ (call_info.foldl writeCallInfoLoop ("", true)).1 ++ ")"

/-- The log string built in `Process` (lines 230-235): the message text
followed by the call-info suffix. -/
def renderBody (msg : Message) : String :=
  msg.text ++ WriteCallInfoString msg.call_info

/-! ## File destinations and the per-entry writes (`Process`, lines 238-261) -/

/-- The three per-log-level aggregate streams held open by the manager
(`m_WarningLog`, `m_ErrorLog`, `m_FatalLog`). -/
inductive AggFile where
  | warnings
  | errors
  | fatals
deriving DecidableEq, Repr

/-- The path each aggregate stream is opened on (constructor, lines 142-144). -/
def aggPath : AggFile → String
  | .warnings => "logs/warnings.log"
  | .errors => "logs/errors.log"
  | .fatals => "logs/fatals.log"

/-- The `loglevel_file` selection in `Process` (lines 247-253): `WARNING`,
`ERROR` and `FATAL` each select their aggregate stream, everything else
selects none (`nullptr`). -/
def loglevelFile : LogLevel → Option AggFile
  | .WARNING => some AggFile.warnings
  | .ERROR => some AggFile.errors
  | .FATAL => some AggFile.fatals
  | _ => none

/-- A write destination: the per-module log file (opened per write) or one of
the three retained aggregate streams. -/
inductive Dest where
  | moduleFile (path : String)
  | agg (a : AggFile)
deriving DecidableEq, Repr

/-- Path of the per-module log file (`"logs/" + modulename + ".log"`,
line 238). -/
def moduleLogPath (modulename : String) : String :=
  "logs/" ++ modulename ++ ".log"

/-- The line written to the per-module file (lines 240-243):
`'[' << timestamp << "] " << '[' << loglevel_str << "] " << log_string`
(the terminating newline and flush are modelled separately). -/
def moduleFileLine (ts : String) (msg : Message) : String :=
  "[" ++ ts ++ "] " ++ "[" ++ GetLogLevelAsString msg.loglevel ++ "] " ++
    renderBody msg

/-- The line written to the selected aggregate stream (lines 257-260):
`'[' << timestamp << "] " << '[' << modulename << "] " << log_string`. -/
def aggFileLine (ts : String) (msg : Message) : String :=
  "[" ++ ts ++ "] " ++ "[" ++ msg.log_module ++ "] " ++ renderBody msg

/-- All file writes performed for one processed message, in program order
(lines 238-261): always the per-module line, then the aggregate line when
`loglevelFile` selects a stream. -/
def fileWrites (ts : String) (msg : Message) : List (Dest × String) :=
  (Dest.moduleFile (moduleLogPath msg.log_module), moduleFileLine ts msg) ::
    (match loglevelFile msg.loglevel with
     | some a => [(Dest.agg a, aggFileLine ts msg)]
     | none => [])

/-! ## Console output (`Process`, lines 263-290) -/

/-- An RGB color as used by `fmt::rgb`. -/
structure Rgb where
  r : Nat
  g : Nat
  b : Nat
deriving DecidableEq, Repr

/-- `fmt::color` constants used by the source (CSS color values). -/
def colorGreen : Rgb := ⟨0, 128, 0⟩

def colorRoyalBlue : Rgb := ⟨65, 105, 225⟩

def colorOrange : Rgb := ⟨255, 165, 0⟩

def colorRed : Rgb := ⟨255, 0, 0⟩

def colorWhiteSmoke : Rgb := ⟨245, 245, 245⟩

def colorWhite : Rgb := ⟨255, 255, 255⟩

def colorSandyBrown : Rgb := ⟨244, 164, 96⟩

/-- `GetLogLevelColor` (LogManager.cpp lines 48-66). -/
def GetLogLevelColor : LogLevel → Rgb
  | .DEBUG => colorGreen
  | .INFO => colorRoyalBlue
  | .WARNING => colorOrange
  | .ERROR => colorRed
  | .FATAL => colorRed
  | .VERBOSE => colorWhiteSmoke

/-- One `fmt::print` call on the console: uncolored text, text with a
foreground color, or text with a foreground and a background color
(`fmt::print(fd, bg, ...)`). -/
inductive PrintCmd where
  | plain (s : String)
  | fg (c : Rgb) (s : String)
  | fgbg (fgc bgc : Rgb) (s : String)
deriving DecidableEq, Repr

/-- The severity-field print of the colorized branch (lines 278-282):
`FATAL` is printed with `fmt::print(fmt::color::white, loglevel_color, ...)`
— white foreground on the level color as background — every other level
with `fmt::print(loglevel_color, ...)`. -/
def severityPrint (level : LogLevel) : PrintCmd :=
  if level = LogLevel.FATAL then
    PrintCmd.fgbg colorWhite (GetLogLevelColor level) (GetLogLevelAsString level)
  else
    PrintCmd.fg (GetLogLevelColor level) (GetLogLevelAsString level)

/-- The colorized console output of one message (lines 273-283), as the
sequence of `fmt::print` calls the code issues. -/
def colorizedConsolePrints (ts : String) (msg : Message) : List PrintCmd :=
  [PrintCmd.plain "[",
   PrintCmd.fg ⟨255, 255, 150⟩ ts,
   PrintCmd.plain "] [",
   PrintCmd.fg colorSandyBrown msg.log_module,
   PrintCmd.plain "] [",
   severityPrint msg.loglevel,
   PrintCmd.plain ("] " ++ renderBody msg ++ "\n")]

/-- The plain (colors disabled) console line (lines 287-288):
`fmt::print("[...] [...] [...] ...\n", timestamp, modulename, loglevel_str,
log_string)`, without the trailing newline. -/
def plainConsoleLine (ts : String) (msg : Message) : String :=
  "[" ++ ts ++ "] [" ++ msg.log_module ++ "] [" ++
    GetLogLevelAsString msg.loglevel ++ "] " ++ renderBody msg

/-- The console-echo decision (line 267):
`log_config.PrintToConsole || level_config.PrintToConsole`. -/
def printToConsole (sourceFlag levelFlag : Bool) : Bool :=
  sourceFlag || levelFlag

/-! ## Lazy folder creation (`Process`, lines 210-221) -/

/-- The folders created for a module name seen for the first time
(lines 214-218): the loop
`while ((pos = modulename.find('/', pos)) != npos)
CreateFolder("logs/" + modulename.substr(0, pos++))`
creates, for each position of `'/'` in the name in increasing order, the
folder `logs/` followed by the characters before that slash. -/
def createdFolders (m : List Char) : List String :=
  (List.range m.length).filterMap fun pos =>
    if m.get? pos = some '/' then some ("logs/" ++ String.mk (m.take pos))
    else none

/-- The `hashed_modules` memoization step of `Process` (lines 210-221):
given the set of module names already seen and the current message's module
name, returns the updated set and the list of folders the iteration creates
(`CreateFolder` calls, in order). A name already in the set triggers no
filesystem mutation. -/
def processModuleDirs (hashed : List String) (modulename : String) :
    List String × List String :=
  if modulename ∈ hashed then (hashed, [])
  else (modulename :: hashed, createdFolders modulename.data)

/-! ## Time-format bracket stripping (constructor, lines 124-136) -/

/-- Whether a character belongs to `"[]()"`, the set passed to
`find_first_of` on line 129. -/
def isBracketChar (c : Char) : Bool :=
  c = '[' || c = ']' || c = '(' || c = ')'

/-- `cfg_time_format.find_first_of("[]()")`: index of the first bracket
character, if any. -/
def findFirstOfBrackets : (l : List Char) → Option (Fin l.length)
  | [] => none
  | c :: rest =>
    if isBracketChar c then some ⟨0, Nat.succ_pos _⟩
    else (findFirstOfBrackets rest).map Fin.succ

/-- The bracket-deletion loop of the constructor (lines 128-130):
`while ((pos = cfg_time_format.find_first_of("[]()")) != npos)
cfg_time_format.erase(pos, 1)`. -/
def stripBrackets (l : List Char) : List Char :=
  match findFirstOfBrackets l with
  | none => l
  | some i => stripBrackets (l.eraseIdx i.val)
termination_by l.length
decreasing_by
  exact Nat.lt_of_lt_of_le
    (by rw [List.length_eraseIdx_of_lt i.isLt]; exact Nat.sub_lt (Nat.lt_of_le_of_lt (Nat.zero_le _) i.isLt) Nat.one_pos)
    (Nat.le_refl _)

/-- The default `m_DateTimeFormat` (constructor initializer, line 120). -/
def defaultDateTimeFormat : String := "\x7b:%x %X\x7d"

/-- `m_DateTimeFormat` as set by the constructor (lines 118-136): the
default when no `logtimeformat` config variable exists, otherwise
`"\x7b:" + cfg + "\x7d"` after deleting every bracket character from the
configured value. -/
def makeDateTimeFormat : Option String → String
  | none => defaultDateTimeFormat
  | some cfg => "\x7b:" ++ String.mk (stripBrackets cfg.data) ++ "\x7d"

/-! ## Logger registration (`RegisterLogger` / `UnregisterLogger`,
lines 164-180) -/

/-- Modelled from the spec: the declaration of `m_Loggers` lives in
`LogManager.hpp`, which is not among the sources; the spec's design notes
record that teardown relies on "map-erase side effects" of the registrant
container, matching the `emplace(module_name, logger)` / `erase(module_name)`
/ `size()` usage in LogManager.cpp — a map keyed by module name, one slot
per name. We model it as the list of registered module names with unique-key
map semantics: `emplace` of an existing key is a no-op. This is
`RegisterLogger` (lines 164-168). -/
def emplaceLogger (loggers : List String) (name : String) : List String :=
  if name ∈ loggers then loggers else name :: loggers

/-- `UnregisterLogger` (lines 170-180): erase the logger's module name from
the map, then `is_last = (m_Loggers.size() == 0)`; when `is_last` holds the
singleton is destroyed, i.e. full teardown is initiated. Returns the new
map and the teardown decision. -/
def unregisterLogger (loggers : List String) (name : String) :
    List String × Bool :=
  let remaining := loggers.erase name
  (remaining, remaining.isEmpty)

/-! ## File handles and raw file operations (constructor lines 140-144,
destructor lines 159-161, `Process` lines 238-261) -/

/-- A raw operation on a file stream. `openStream` records whether
`std::ofstream::app` was set: an append-mode open keeps the existing
contents, a plain `out` open truncates. `writeData` is one `operator<<`
chain up to and including the `'\n'`. -/
inductive FileOp where
  | openStream (d : Dest) (append : Bool)
  | writeData (d : Dest) (data : String)
  | flushStream (d : Dest)
  | closeStream (d : Dest)
deriving DecidableEq, Repr

/-- The stream operations of the constructor (lines 142-144): the three
aggregate logs are opened with the default `out` mode (no `app` flag). -/
def managerStartupOps : List FileOp :=
  [FileOp.openStream (Dest.agg AggFile.warnings) false,
   FileOp.openStream (Dest.agg AggFile.errors) false,
   FileOp.openStream (Dest.agg AggFile.fatals) false]

/-- The stream operations of the destructor (lines 159-161). -/
def managerTeardownOps : List FileOp :=
  [FileOp.closeStream (Dest.agg AggFile.warnings),
   FileOp.closeStream (Dest.agg AggFile.errors),
   FileOp.closeStream (Dest.agg AggFile.fatals)]

/-- The file operations of one `Process` loop iteration (lines 238-261):
open the per-module file with `out | app`, write its line plus `'\n'` and
`std::flush`, then, when a per-log-level stream is selected, write the
aggregate line plus `'\n'` and flush it; the per-module `ofstream` is a
local and closes when the iteration's block ends. -/
def processFileOps (ts : String) (msg : Message) : List FileOp :=
  [FileOp.openStream (Dest.moduleFile (moduleLogPath msg.log_module)) true,
   FileOp.writeData (Dest.moduleFile (moduleLogPath msg.log_module))
     (moduleFileLine ts msg ++ "\n"),
   FileOp.flushStream (Dest.moduleFile (moduleLogPath msg.log_module))] ++
  (match loglevelFile msg.loglevel with
   | some a =>
     [FileOp.writeData (Dest.agg a) (aggFileLine ts msg ++ "\n"),
      FileOp.flushStream (Dest.agg a)]
   | none => []) ++
  [FileOp.closeStream (Dest.moduleFile (moduleLogPath msg.log_module))]

/-- Effect of one file operation on the contents of every destination. A
non-append open truncates; a write goes to the end of the stream (the put
position of an open `ofstream` only moves forward). -/
def applyFileOp (fs : Dest → String) : FileOp → Dest → String
  | FileOp.openStream d append =>
    if append then fs else Function.update fs d ""
  | FileOp.writeData d s => Function.update fs d (fs d ++ s)
  | FileOp.flushStream _ => fs
  | FileOp.closeStream _ => fs

/-- Effect of a sequence of file operations, first to last. -/
def applyFileOps (fs : Dest → String) (ops : List FileOp) : Dest → String :=
  ops.foldl applyFileOp fs

/-- Every `writeData` in the list is immediately followed by a flush of the
same destination: the written line is flushed before any next write begins. -/
def writesFlushed : List FileOp → Bool
  | [] => true
  | FileOp.writeData d _ :: FileOp.flushStream d' :: rest =>
    decide (d = d') && writesFlushed (FileOp.flushStream d' :: rest)
  | FileOp.writeData _ _ :: _ => false
  | _ :: rest => writesFlushed rest

/-! ## The producer/consumer pipeline as a transition system

`QueueLogMessage` (lines 182-189), the destructor (lines 149-162) and
`Process` (lines 191-296) interact through `m_QueueMtx`, `m_QueueNotifier`,
`m_LogMsgQueue` and `m_ThreadRunning`. We embed them as an interleaving
transition system. Messages are identified by numbers; `processed` records
completed file writes in order, and two ghost fields (`submitted`,
`stopSnapshot`) record the full submission history and the history at the
moment the destructor requested shutdown. Producer critical sections and
the destructor's flag write are atomic steps, enabled only while the worker
does not hold the mutex; `notify_one` is modelled as a separately delivered
signal that is lost when the worker is not waiting, which is the C++
condition-variable semantics of the predicate-less `wait` on line 198. -/

/-- Program counter of the consumer thread running `LogManager::Process`. -/
inductive WorkerPc where
  /-- spawned (line 146), not yet at the `unique_lock` on line 193 -/
  | started
  /-- holds `m_QueueMtx`, about to call `m_QueueNotifier.wait` (line 198) -/
  | atWait
  /-- blocked inside `cv.wait`, mutex released -/
  | waiting
  /-- holds the mutex, at the inner `while (!m_LogMsgQueue.empty())`
  condition (line 199) -/
  | checkQueue
  /-- mutex released (line 208), performing the writes for `msg` -/
  | processing (msg : Nat)
  /-- holds the mutex (relocked on line 293), at the `while (m_ThreadRunning)`
  condition (line 295) -/
  | checkRunning
  /-- `Process` returned -/
  | exited
deriving DecidableEq, Repr

/-- Whether the worker currently holds `m_QueueMtx`. -/
def holdsLock : WorkerPc → Bool
  | WorkerPc.atWait => true
  | WorkerPc.checkQueue => true
  | WorkerPc.checkRunning => true
  | _ => false

/-- The message currently being written, if any. -/
def inflight : WorkerPc → List Nat
  | WorkerPc.processing m => [m]
  | _ => []

/-- Shared state of the pipeline. -/
structure PipeState where
  worker : WorkerPc
  /-- `m_LogMsgQueue`, front first -/
  queue : List Nat
  /-- `m_ThreadRunning` -/
  threadRunning : Bool
  /-- `notify_one` calls issued but not yet delivered -/
  notifies : Nat
  /-- messages whose writes have completed, in completion order -/
  processed : List Nat
  /-- ghost: every message ever queued, in submission order -/
  submitted : List Nat
  /-- ghost: `submitted` as of the shutdown request, if one happened -/
  stopSnapshot : Option (List Nat)
deriving DecidableEq, Repr

/-- State at the end of the constructor (line 146): worker spawned, queue
empty, `m_ThreadRunning` true. -/
def initState : PipeState :=
  { worker := WorkerPc.started
    queue := []
    threadRunning := true
    notifies := 0
    processed := []
    submitted := []
    stopSnapshot := none }

/-- One interleaving step of the pipeline. -/
inductive Step : PipeState → PipeState → Prop where
  /-- `QueueLogMessage` (lines 182-189): under the mutex, push the message;
  the subsequent `notify_one` is issued for later delivery. Producers hold
  registrations, so this is only enabled before the shutdown request
  (calling `Submit` after teardown has begun is a caller contract
  violation). -/
  | queueLogMessage (s : PipeState) (m : Nat)
      (hlock : holdsLock s.worker = false)
      (hrun : s.threadRunning = true) :
      Step s { s with
        queue := s.queue ++ [m]
        notifies := s.notifies + 1
        submitted := s.submitted ++ [m] }
  /-- Destructor, lines 151-155: under the mutex set `m_ThreadRunning`
  to false, then issue `notify_one`. -/
  | requestShutdown (s : PipeState)
      (hlock : holdsLock s.worker = false)
      (hrun : s.threadRunning = true) :
      Step s { s with
        threadRunning := false
        notifies := s.notifies + 1
        stopSnapshot := some s.submitted }
  /-- A pending `notify_one` reaches the worker while it is blocked in
  `cv.wait` (line 198): the worker wakes and reacquires the mutex. -/
  | wakeDelivered (s : PipeState)
      (hn : 0 < s.notifies)
      (hw : s.worker = WorkerPc.waiting) :
      Step s { s with worker := WorkerPc.checkQueue, notifies := s.notifies - 1 }
  /-- A pending `notify_one` fires while the worker is not blocked in
  `cv.wait`: the signal is lost. -/
  | wakeLost (s : PipeState)
      (hn : 0 < s.notifies)
      (hw : s.worker ≠ WorkerPc.waiting) :
      Step s { s with notifies := s.notifies - 1 }
  /-- Line 193: the worker acquires `m_QueueMtx`. -/
  | acquireLock (s : PipeState) (hw : s.worker = WorkerPc.started) :
      Step s { s with worker := WorkerPc.atWait }
  /-- Line 198: `m_QueueNotifier.wait(lk)` releases the mutex and blocks,
  unconditionally — the queue is not examined first. -/
  | beginWait (s : PipeState) (hw : s.worker = WorkerPc.atWait) :
      Step s { s with worker := WorkerPc.waiting }
  /-- Lines 199-208: the queue is non-empty; pop the front message and
  release the mutex before writing it. -/
  | popMessage (s : PipeState) (m : Nat) (rest : List Nat)
      (hw : s.worker = WorkerPc.checkQueue)
      (hq : s.queue = m :: rest) :
      Step s { s with worker := WorkerPc.processing m, queue := rest }
  /-- Line 199: the queue is empty; fall through to the do-while condition. -/
  | queueEmpty (s : PipeState)
      (hw : s.worker = WorkerPc.checkQueue)
      (hq : s.queue = []) :
      Step s { s with worker := WorkerPc.checkRunning }
  /-- Lines 210-293: all writes for the message are done; reacquire the
  mutex and return to the inner while condition. -/
  | finishMessage (s : PipeState) (m : Nat)
      (hw : s.worker = WorkerPc.processing m) :
      Step s { s with
        worker := WorkerPc.checkQueue
        processed := s.processed ++ [m] }
  /-- Line 295: `m_ThreadRunning` is false; leave the loop and return. -/
  | exitLoop (s : PipeState)
      (hw : s.worker = WorkerPc.checkRunning)
      (hrun : s.threadRunning = false) :
      Step s { s with worker := WorkerPc.exited }
  /-- Line 295: `m_ThreadRunning` still true; loop back to the `wait` on
  line 198. -/
  | loopAgain (s : PipeState)
      (hw : s.worker = WorkerPc.checkRunning)
      (hrun : s.threadRunning = true) :
      Step s { s with worker := WorkerPc.atWait }

/-- States reachable from the post-constructor state. -/
inductive Reachable : PipeState → Prop where
  | init : Reachable initState
  | step {s t : PipeState} : Reachable s → Step s t → Reachable t

/-- The pipeline invariant: the submission history splits into the processed
messages, the in-flight message and the queue, in order; the do-while
condition and the exit are only reached with an empty queue; the stop
snapshot exists exactly once shutdown was requested and is a prefix of the
submission history. -/
def PipeInv (s : PipeState) : Prop :=
  s.submitted = s.processed ++ inflight s.worker ++ s.queue
  ∧ (s.worker = WorkerPc.checkRunning → s.queue = [])
  ∧ (s.worker = WorkerPc.exited → s.threadRunning = false ∧ s.queue = [])
  ∧ (s.stopSnapshot = none ↔ s.threadRunning = true)
  ∧ (∀ L, s.stopSnapshot = some L → L <+: s.submitted)

/-! ## Spec-side renderings and concrete states used below -/

/-- Spec-side rendering of a call chain, following the spec's words:
`"file:line -> file:line -> ..."` with frames in the given order. Used to
compare `WriteCallInfoString` against the specified format. -/
def specChainString : List CallInfo → String
  | [] => ""
  | [ci] => callInfoFrame ci
  | ci :: rest => callInfoFrame ci ++ " -> " ++ specChainString rest

/-- The escape character, first byte of every ANSI color sequence. -/
def escChar : Char := Char.ofNat 27

/-- A concrete run of the pipeline: message `7` is queued, shutdown is
requested, the worker wakes, drains the queue and exits. This is its final
state. -/
def drainedFinalState : PipeState :=
  { worker := WorkerPc.exited
    queue := []
    threadRunning := false
    notifies := 1
    processed := [7]
    submitted := [7]
    stopSnapshot := some [7] }

/-- A concrete run of the pipeline: message `5` is queued while the worker
has not yet reached the mutex acquisition on line 193, the notification is
delivered and lost, and the worker then blocks in the predicate-less
`cv.wait` with the queue still holding message `5`. -/
def blockedState : PipeState :=
  { worker := WorkerPc.waiting
    queue := [5]
    threadRunning := true
    notifies := 0
    processed := []
    submitted := [5]
    stopSnapshot := none }

/-! # Theorems -/

/-- The invariant holds in the initial state. -/
theorem pipeInv_init : PipeInv initState := by
  refine ⟨rfl, ?_, ?_, ?_, ?_⟩ <;> simp [initState]

/-- The invariant is preserved by every step. -/
theorem pipeInv_step {s t : PipeState} (hinv : PipeInv s) (hstep : Step s t) :
    PipeInv t := by
  obtain ⟨h1, h2, h3, h4, h5⟩ := hinv
  cases hstep with
  | queueLogMessage m hlock hrun =>
    refine ⟨?_, ?_, ?_, h4, ?_⟩
    · rw [h1, List.append_assoc]
    · intro hw
      have hw2 : s.worker = WorkerPc.checkRunning := hw
      rw [hw2] at hlock
      exact absurd hlock (by decide)
    · intro hw
      have hw2 : s.worker = WorkerPc.exited := hw
      exact absurd (h3 hw2).1 (by simp [hrun])
    · intro L hL
      exact (h5 L hL).trans (List.prefix_append _ _)
  | requestShutdown hlock hrun =>
    refine ⟨h1, h2, ?_, by simp, ?_⟩
    · intro hw
      exact ⟨rfl, (h3 hw).2⟩
    · intro L hL
      obtain rfl := (Option.some.injEq _ _ ▸ hL : _ = L)
      exact List.prefix_refl _
  | wakeDelivered hn hw =>
    rw [hw] at h1
    refine ⟨h1, ?_, ?_, h4, h5⟩
    · intro hc; simp at hc
    · intro hc; simp at hc
  | wakeLost hn hw =>
    exact ⟨h1, h2, h3, h4, h5⟩
  | acquireLock hw =>
    rw [hw] at h1
    refine ⟨h1, ?_, ?_, h4, h5⟩
    · intro hc; simp at hc
    · intro hc; simp at hc
  | beginWait hw =>
    rw [hw] at h1
    refine ⟨h1, ?_, ?_, h4, h5⟩
    · intro hc; simp at hc
    · intro hc; simp at hc
  | popMessage m rest hw hq =>
    rw [hw, hq] at h1
    refine ⟨by simpa [inflight] using h1, ?_, ?_, h4, h5⟩
    · intro hc; simp at hc
    · intro hc; simp at hc
  | queueEmpty hw hq =>
    rw [hw] at h1
    refine ⟨h1, fun _ => hq, ?_, h4, h5⟩
    · intro hc; simp at hc
  | finishMessage m hw =>
    rw [hw] at h1
    refine ⟨by simpa [inflight] using h1, ?_, ?_, h4, h5⟩
    · intro hc; simp at hc
    · intro hc; simp at hc
  | exitLoop hw hrun =>
    rw [hw] at h1
    refine ⟨h1, ?_, fun _ => ⟨hrun, h2 hw⟩, h4, h5⟩
    · intro hc; simp at hc
  | loopAgain hw hrun =>
    rw [hw] at h1
    refine ⟨h1, ?_, ?_, h4, h5⟩
    · intro hc; simp at hc
    · intro hc; simp at hc

/-- Every reachable pipeline state satisfies the invariant. -/
theorem reachable_pipeInv {s : PipeState} (h : Reachable s) : PipeInv s := by
  induction h with
  | init => exact pipeInv_init
  | step hr hs ih => exact pipeInv_step ih hs

/-- C1: graceful drain. In every reachable state where the worker loop has
exited, shutdown had been requested and the queue is empty, the full
submission history has been processed, and in particular every entry that
was enqueued strictly before the shutdown request (the stop snapshot) is a
prefix of the processed sequence — a shutdown request never abandons
entries still in a non-empty queue. -/
theorem graceful_drain (s : PipeState) (hreach : Reachable s)
    (hexit : s.worker = WorkerPc.exited) :
    s.threadRunning = false ∧ s.queue = [] ∧ s.submitted = s.processed ∧
      ∀ L, s.stopSnapshot = some L → L <+: s.processed := by
  obtain ⟨h1, h2, h3, h4, h5⟩ := reachable_pipeInv hreach
  obtain ⟨hrun, hq⟩ := h3 hexit
  have hsub : s.submitted = s.processed := by
    rw [h1, hexit, hq]
    simp [inflight]
  exact ⟨hrun, hq, hsub, fun L hL => hsub ▸ h5 L hL⟩

/-- C1 witness: a concrete execution — submit message `7`, request
shutdown, wake the worker, drain, exit — reaches `drainedFinalState`, and
`graceful_drain` applies to it. -/
theorem graceful_drain_witness :
    drainedFinalState.threadRunning = false ∧ drainedFinalState.queue = [] ∧
      drainedFinalState.submitted = drainedFinalState.processed ∧
      ∀ L, drainedFinalState.stopSnapshot = some L →
        L <+: drainedFinalState.processed :=
  graceful_drain drainedFinalState
    (Reachable.step
      (Reachable.step
        (Reachable.step
          (Reachable.step
            (Reachable.step
              (Reachable.step
                (Reachable.step
                  (Reachable.step
                    (Reachable.step Reachable.init
                      (Step.queueLogMessage initState 7 rfl rfl))
                    (Step.requestShutdown _ rfl rfl))
                  (Step.acquireLock _ rfl))
                (Step.beginWait _ rfl))
              (Step.wakeDelivered _ (by decide) rfl))
            (Step.popMessage _ 7 [] rfl rfl))
          (Step.finishMessage _ 7 rfl))
        (Step.queueEmpty _ rfl rfl))
      (Step.exitLoop _ rfl rfl))
    rfl

/-- C3: the claim that the worker suspends only while the queue is empty is
violated by the code. The wait on line 198 has no predicate, so a message
queued before the worker first reaches it leaves the worker blocked in
`cv.wait` with a non-empty queue, no shutdown requested and no pending
notification; no step the worker alone can take leaves the waiting state —
every possible successor state still has it blocked. -/
theorem worker_blocked_with_nonempty_queue :
    Reachable blockedState ∧ blockedState.queue ≠ [] ∧
      blockedState.threadRunning = true ∧
      blockedState.worker = WorkerPc.waiting ∧ blockedState.notifies = 0 ∧
      ∀ t, Step blockedState t → t.worker = WorkerPc.waiting := by
  refine ⟨?_, by decide, rfl, rfl, rfl, ?_⟩
  · exact
      Reachable.step
        (Reachable.step
          (Reachable.step
            (Reachable.step Reachable.init
              (Step.queueLogMessage initState 5 rfl rfl))
            (Step.wakeLost _ (by decide) (by decide)))
          (Step.acquireLock _ rfl))
        (Step.beginWait _ rfl)
  · intro t h
    cases h with
    | queueLogMessage m hlock hrun => rfl
    | requestShutdown hlock hrun => rfl
    | wakeDelivered hn hw => exact absurd hn (by decide)
    | wakeLost hn hw => exact absurd hn (by decide)
    | acquireLock hw => exact absurd hw (by decide)
    | beginWait hw => exact absurd hw (by decide)
    | popMessage m rest hw hq => exact absurd hw (by decide)
    | queueEmpty hw hq => exact absurd hw (by decide)
    | finishMessage m hw => exact absurd hw (by simp [blockedState])
    | exitLoop hw hrun => exact absurd hw (by decide)
    | loopAgain hw hrun => exact absurd hw (by decide)

/-- C4 counterexample: two independent registrants of the same source name
`"s"` collapse to a single map entry (`emplace` of an existing key is a
no-op), and unregistering just one of them empties the map and triggers
teardown even though the other registrant is still alive — the claimed
live-registrant count is not tracked, and teardown fires early. -/
theorem shared_name_unregister_teardown :
    emplaceLogger (emplaceLogger [] "s") "s" = ["s"]
    ∧ (emplaceLogger (emplaceLogger [] "s") "s").length ≠ 2
    ∧ (unregisterLogger (emplaceLogger (emplaceLogger [] "s") "s") "s").2 = true := by
  refine ⟨by decide, by decide, by decide⟩

/-- C4 (amended): the Manager tracks the set of registered source names, one
slot per name — re-registering an existing name is a no-op — and an
Unregister call initiates teardown exactly when erasing its name leaves the
map empty; unregistering a name while a different name remains registered
never triggers teardown. -/
theorem unregister_teardown_trigger (loggers : List String)
    (name other : String) :
    (name ∈ loggers → emplaceLogger loggers name = loggers)
    ∧ (name ∉ loggers → emplaceLogger loggers name = name :: loggers)
    ∧ ((unregisterLogger loggers name).1 = loggers.erase name)
    ∧ ((unregisterLogger loggers name).2 = true ↔ loggers.erase name = [])
    ∧ (other ∈ loggers → other ≠ name →
        (unregisterLogger loggers name).2 = false) := by
  refine ⟨?_, ?_, rfl, ?_, ?_⟩
  · intro h; simp [emplaceLogger, h]
  · intro h; simp [emplaceLogger, h]
  · exact List.isEmpty_iff
  · intro hmem hne
    have : other ∈ loggers.erase name := (List.mem_erase_of_ne hne).mpr hmem
    rcases h : loggers.erase name with _ | ⟨a, l⟩
    · rw [h] at this; cases this
    · simp [unregisterLogger, h]

/-- C4 witness: `unregister_teardown_trigger` applied to the concrete map
holding the two names `"s"` and `"t"`: unregistering `"s"` does not trigger
teardown because `"t"` remains. -/
theorem unregister_teardown_trigger_witness :
    (unregisterLogger ["s", "t"] "s").2 = false :=
  (unregister_teardown_trigger ["s", "t"] "s" "t").2.2.2.2 (by decide) (by decide)

/-- C8 counterexample: the colorized console prints the `FATAL` severity
name with `fmt::print(fmt::color::white, loglevel_color, ...)`, i.e. white
text on a red background — not, as claimed, red text on a white
background. -/
theorem fatal_console_color_counterexample :
    severityPrint LogLevel.FATAL = PrintCmd.fgbg colorWhite colorRed "FATAL"
    ∧ severityPrint LogLevel.FATAL ≠ PrintCmd.fgbg colorRed colorWhite "FATAL" := by
  refine ⟨by decide, by decide⟩

/-- C8 (amended): for every entry echoed to the console with colors enabled,
the severity name is emitted with the mapping DEBUG=green, INFO=royal blue,
WARNING=orange, ERROR=red, FATAL=white text on red background (inverted),
VERBOSE=white smoke, while the timestamp and source fields use the fixed
accent colors (255,255,150) and sandy brown, independent of severity. -/
theorem colorized_severity_mapping (ts : String) (msg : Message) :
    severityPrint LogLevel.DEBUG = PrintCmd.fg colorGreen "DEBUG"
    ∧ severityPrint LogLevel.INFO = PrintCmd.fg colorRoyalBlue "INFO"
    ∧ severityPrint LogLevel.WARNING = PrintCmd.fg colorOrange "WARNING"
    ∧ severityPrint LogLevel.ERROR = PrintCmd.fg colorRed "ERROR"
    ∧ severityPrint LogLevel.FATAL = PrintCmd.fgbg colorWhite colorRed "FATAL"
    ∧ severityPrint LogLevel.VERBOSE = PrintCmd.fg colorWhiteSmoke "VERBOSE"
    ∧ (colorizedConsolePrints ts msg).get? 1 =
        some (PrintCmd.fg (Rgb.mk 255 255 150) ts)
    ∧ (colorizedConsolePrints ts msg).get? 3 =
        some (PrintCmd.fg colorSandyBrown msg.log_module)
    ∧ (colorizedConsolePrints ts msg).get? 5 =
        some (severityPrint msg.loglevel) := by
  refine ⟨by decide, by decide, by decide, by decide, by decide, by decide,
    rfl, rfl, rfl⟩

/-- C6: directory auto-creation with memoization. Processing the first
entry for source `"a/b/c"` creates exactly the folders `logs/a` and
`logs/a/b` (one per path-separator prefix); processing any message whose
module name the worker has already seen performs no folder creation at
all; and every entry for the source lands in the same file
`logs/a/b/c.log`. -/
theorem directory_creation_idempotent (hashed : List String) (m : String) :
    (processModuleDirs (processModuleDirs hashed m).1 m).2 = []
    ∧ (m ∉ hashed → (processModuleDirs hashed m).2 = createdFolders m.data)
    ∧ (m ∈ hashed → (processModuleDirs hashed m).2 = [])
    ∧ createdFolders "a/b/c".data = ["logs/a", "logs/a/b"]
    ∧ moduleLogPath "a/b/c" = "logs/a/b/c.log" := by
  refine ⟨?_, ?_, ?_, by decide, by decide⟩
  · by_cases hm : m ∈ hashed <;> simp [processModuleDirs, hm]
  · intro hm; simp [processModuleDirs, hm]
  · intro hm; simp [processModuleDirs, hm]

/-- C6 witness: the first entry for the never-seen source `"a/b/c"`
creates exactly the two parent folders. -/
theorem directory_creation_idempotent_witness :
    (processModuleDirs [] "a/b/c").2 = createdFolders "a/b/c".data :=
  (directory_creation_idempotent [] "a/b/c").2.1 (by decide)

/-- Helper for C5: once the first frame is in the accumulator, the fold of
`WriteCallInfoString` renders the remaining frames `" -> "`-separated,
matching the spec-side chain rendering. -/
theorem foldl_writeCallInfo (l : List CallInfo) (d : CallInfo) (s : String) :
    (l.foldl writeCallInfoLoop (s ++ callInfoFrame d, false)).1 =
      s ++ specChainString (d :: l) := by
  induction l generalizing d s with
  | nil => rfl
  | cons e rest ih =>
    show (rest.foldl writeCallInfoLoop
        (((s ++ callInfoFrame d) ++ " -> ") ++ callInfoFrame e, false)).1 = _
    rw [ih e ((s ++ callInfoFrame d) ++ " -> ")]
    show _ = s ++ ((callInfoFrame d ++ " -> ") ++ specChainString (e :: rest))
    simp [String.append_assoc]

/-- C5: call-chain rendering. The body of every message is its text,
followed — exactly when the call chain is non-empty — by a space-prefixed
parenthesized chain of `file:line` frames joined by `" -> "` in the given
order; the concrete chain `[("conn.c",42), ("main.c",10)]` renders as
`" (conn.c:42 -> main.c:10)"`. -/
theorem callchain_rendering (msg : Message) :
    renderBody msg = msg.text ++
      (if msg.call_info = [] then ""
       else " (" ++ specChainString msg.call_info ++ ")")
    ∧ WriteCallInfoString [CallInfo.mk "conn.c" 42, CallInfo.mk "main.c" 10] =
        " (conn.c:42 -> main.c:10)" := by
  constructor
  · unfold renderBody WriteCallInfoString
    cases hci : msg.call_info with
    | nil => rfl
    | cons c rest =>
      rw [show ((c :: rest).foldl writeCallInfoLoop ("", true)).1 =
            specChainString (c :: rest) from foldl_writeCallInfo rest c ""]
      rfl
  · decide

/-- C7: console gating and plain rendering. A message is echoed iff the
per-source flag or the per-severity flag is set (either alone suffices);
with colors disabled the console line is exactly
`[<timestamp>] [<source>] [<SEVERITY>] <body>`, and it contains no escape
character whenever its four payload fields contain none. -/
theorem console_gating (srcFlag lvlFlag : Bool) (ts : String) (msg : Message) :
    (printToConsole srcFlag lvlFlag = true ↔ (srcFlag = true ∨ lvlFlag = true))
    ∧ plainConsoleLine ts msg =
        "[" ++ ts ++ "] [" ++ msg.log_module ++ "] [" ++
          GetLogLevelAsString msg.loglevel ++ "] " ++ renderBody msg
    ∧ (escChar ∉ ts.data → escChar ∉ msg.log_module.data →
        escChar ∉ (GetLogLevelAsString msg.loglevel).data →
        escChar ∉ (renderBody msg).data →
        escChar ∉ (plainConsoleLine ts msg).data) := by
  refine ⟨?_, rfl, ?_⟩
  · simp [printToConsole]
  · intro h1 h2 h3 h4 hmem
    have hdata : (plainConsoleLine ts msg).data =
        "[".data ++ ts.data ++ "] [".data ++ msg.log_module.data ++
          "] [".data ++ (GetLogLevelAsString msg.loglevel).data ++
          "] ".data ++ (renderBody msg).data := rfl
    rw [hdata] at hmem
    have e1 : escChar ∉ "[".data := by decide
    have e2 : escChar ∉ "] [".data := by decide
    have e3 : escChar ∉ "] ".data := by decide
    simp only [List.mem_append] at hmem
    rcases hmem with ((((((hx | hx) | hx) | hx) | hx) | hx) | hx) | hx
    · exact e1 hx
    · exact h1 hx
    · exact e2 hx
    · exact h2 hx
    · exact e2 hx
    · exact h3 hx
    · exact e3 hx
    · exact h4 hx

/-- C7 witness: `console_gating` applied to a concrete WARNING message with
escape-free fields. -/
theorem console_gating_witness :
    escChar ∉ (plainConsoleLine "12:00"
      (Message.mk "core" LogLevel.WARNING "w" [])).data :=
  (console_gating false true "12:00"
      (Message.mk "core" LogLevel.WARNING "w" [])).2.2
    (by decide) (by decide) (by decide) (by decide)

/-- Helper for C10: erasing the bracket character found by
`find_first_of("[]()")` does not change the bracket-free residue. -/
theorem filter_eraseIdx_findFirst :
    ∀ (l : List Char) (i : Fin l.length), findFirstOfBrackets l = some i →
      (l.eraseIdx i.val).filter (fun c => !isBracketChar c) =
        l.filter (fun c => !isBracketChar c) := by
  intro l
  induction l with
  | nil => intro i _; exact absurd i.isLt (Nat.not_lt_zero _)
  | cons c rest ih =>
    intro i h
    simp only [findFirstOfBrackets] at h
    by_cases hc : isBracketChar c = true
    · rw [if_pos hc] at h
      obtain rfl := (Option.some.inj h).symm
      simp [List.eraseIdx, List.filter_cons, hc]
    · rw [if_neg hc] at h
      rcases hj : findFirstOfBrackets rest with _ | j
      · rw [hj] at h; cases h
      · rw [hj] at h
        obtain rfl := (Option.some.inj h).symm
        simp only [Bool.not_eq_true] at hc
        simp [List.eraseIdx, List.filter_cons, hc, ih j hj]

/-- Helper for C10: when `find_first_of("[]()")` finds nothing, the string
is already bracket-free and filtering is the identity. -/
theorem filter_findFirst_none :
    ∀ (l : List Char), findFirstOfBrackets l = none →
      l.filter (fun c => !isBracketChar c) = l := by
  intro l
  induction l with
  | nil => intro _; rfl
  | cons c rest ih =>
    intro h
    simp only [findFirstOfBrackets] at h
    by_cases hc : isBracketChar c = true
    · rw [if_pos hc] at h; cases h
    · rw [if_neg hc, Option.map_eq_none'] at h
      simp only [Bool.not_eq_true] at hc
      simp [List.filter_cons, hc, ih h]

/-- Helper for C10: the erase loop of the constructor computes exactly the
filter deleting every `[`, `]`, `(`, `)`. -/
theorem stripBrackets_eq_filter (l : List Char) :
    stripBrackets l = l.filter fun c => !isBracketChar c := by
  have H : ∀ (n : Nat) (l : List Char), l.length ≤ n →
      stripBrackets l = l.filter fun c => !isBracketChar c := by
    intro n
    induction n with
    | zero =>
      intro l hl
      obtain rfl : l = [] := List.length_eq_zero.mp (Nat.le_zero.mp hl)
      rw [stripBrackets]
      rfl
    | succ n ih =>
      intro l hl
      rw [stripBrackets]
      cases hf : findFirstOfBrackets l with
      | none => exact (filter_findFirst_none l hf).symm
      | some i =>
        have hlen : (l.eraseIdx i.val).length ≤ n := by
          rw [List.length_eraseIdx_of_lt i.isLt]
          omega
        exact (ih (l.eraseIdx i.val) hlen).trans
          (filter_eraseIdx_findFirst l i hf)
  exact H l.length l (Nat.le_refl _)

/-- C10: bracket stripping of the configured timestamp pattern. The
constructor deletes every occurrence of `[`, `]`, `(`, `)` from the
configured pattern (the erase loop equals a character filter), no bracket
character survives into the pattern in use, and two configured patterns
that differ only in those characters produce the same `m_DateTimeFormat`
and hence identical rendered timestamps for every entry. -/
theorem time_format_bracket_stripping (cfg c1 c2 : String) :
    stripBrackets cfg.data = cfg.data.filter (fun c => !isBracketChar c)
    ∧ (∀ c, c ∈ stripBrackets cfg.data → isBracketChar c = false)
    ∧ (c1.data.filter (fun c => !isBracketChar c) =
          c2.data.filter (fun c => !isBracketChar c) →
        makeDateTimeFormat (some c1) = makeDateTimeFormat (some c2)) := by
  refine ⟨stripBrackets_eq_filter _, ?_, ?_⟩
  · intro c hc
    rw [stripBrackets_eq_filter] at hc
    simpa using (List.mem_filter.mp hc).2
  · intro h
    show "\x7b:" ++ String.mk (stripBrackets c1.data) ++ "\x7d" =
      "\x7b:" ++ String.mk (stripBrackets c2.data) ++ "\x7d"
    rw [stripBrackets_eq_filter, stripBrackets_eq_filter, h]

/-- C10 witness: the configured patterns `"[%H](%M)"` and `"%H%M"` differ
only in bracket characters and produce the same time format. -/
theorem time_format_bracket_stripping_witness :
    makeDateTimeFormat (some "[%H](%M)") = makeDateTimeFormat (some "%H%M") :=
  (time_format_bracket_stripping "" "[%H](%M)" "%H%M").2.2 (by decide)

/-- C2: severity fan-out and line formats. Every processed message writes
exactly one line to its per-module file, formatted
`[<timestamp>] [<SEVERITY>] <body>`; an aggregate line — formatted
`[<timestamp>] [<source>] <body>` — is written iff the severity selects an
aggregate stream, which happens exactly for WARNING, ERROR and FATAL, each
mapped to its matching file; DEBUG, INFO and VERBOSE select none. -/
theorem severity_fanout (ts : String) (msg : Message) :
    ((fileWrites ts msg).filter fun w =>
        decide (w.1 = Dest.moduleFile (moduleLogPath msg.log_module))) =
      [(Dest.moduleFile (moduleLogPath msg.log_module),
        "[" ++ ts ++ "] " ++ "[" ++ GetLogLevelAsString msg.loglevel ++ "] " ++
          renderBody msg)]
    ∧ (∀ a line, (Dest.agg a, line) ∈ fileWrites ts msg ↔
        (loglevelFile msg.loglevel = some a ∧
          line = "[" ++ ts ++ "] " ++ "[" ++ msg.log_module ++ "] " ++
            renderBody msg))
    ∧ ((∃ a line, (Dest.agg a, line) ∈ fileWrites ts msg) ↔
        (msg.loglevel = LogLevel.WARNING ∨ msg.loglevel = LogLevel.ERROR ∨
          msg.loglevel = LogLevel.FATAL))
    ∧ loglevelFile LogLevel.WARNING = some AggFile.warnings
    ∧ loglevelFile LogLevel.ERROR = some AggFile.errors
    ∧ loglevelFile LogLevel.FATAL = some AggFile.fatals
    ∧ loglevelFile LogLevel.DEBUG = none
    ∧ loglevelFile LogLevel.INFO = none
    ∧ loglevelFile LogLevel.VERBOSE = none
    ∧ aggPath AggFile.warnings = "logs/warnings.log"
    ∧ aggPath AggFile.errors = "logs/errors.log"
    ∧ aggPath AggFile.fatals = "logs/fatals.log" := by
  obtain ⟨mod, lvl, txt, ci⟩ := msg
  refine ⟨?_, ?_, ?_, rfl, rfl, rfl, rfl, rfl, rfl, rfl, rfl, rfl⟩ <;>
    cases lvl <;>
    simp [fileWrites, loglevelFile, moduleFileLine, aggFileLine, eq_comm]

/-- C2 witness: `severity_fanout` applied to the claim's concrete example —
source `net/http`, severity ERROR, body `connection refused` — yields the
aggregate line `[t] [net/http] connection refused` in the errors stream. -/
theorem severity_fanout_witness :
    loglevelFile LogLevel.ERROR = some AggFile.errors ∧
      "[t] [net/http] connection refused" =
        "[" ++ "t" ++ "] " ++ "[" ++ "net/http" ++ "] " ++
          renderBody (Message.mk "net/http" LogLevel.ERROR
            "connection refused" []) :=
  ((severity_fanout "t" (Message.mk "net/http" LogLevel.ERROR
      "connection refused" [])).2.1 AggFile.errors
      "[t] [net/http] connection refused").mp (by decide)

/-- C9: append-only, line-buffered file output. In the per-message file
operations, the only stream ever opened is the per-module file and it is
opened in append mode, written once and closed; every written chunk is a
newline-terminated line and is flushed before the next write; applying the
operations appends the module line to the module file and leaves every
destination's previous content as a prefix; no aggregate stream is opened
or closed per message — the three aggregate streams are opened exactly once
at startup and closed exactly once at teardown. -/
theorem file_write_discipline (ts : String) (msg : Message)
    (fs : Dest → String) :
    (∀ d app, FileOp.openStream d app ∈ processFileOps ts msg →
        (app = true ∧ d = Dest.moduleFile (moduleLogPath msg.log_module)))
    ∧ (∀ d, FileOp.closeStream d ∈ processFileOps ts msg →
        d = Dest.moduleFile (moduleLogPath msg.log_module))
    ∧ writesFlushed (processFileOps ts msg) = true
    ∧ (∀ d s, FileOp.writeData d s ∈ processFileOps ts msg →
        ∃ t, s = t ++ "\n")
    ∧ applyFileOps fs (processFileOps ts msg)
          (Dest.moduleFile (moduleLogPath msg.log_module)) =
        fs (Dest.moduleFile (moduleLogPath msg.log_module)) ++
          (moduleFileLine ts msg ++ "\n")
    ∧ (∀ d, ∃ suffix,
        applyFileOps fs (processFileOps ts msg) d = fs d ++ suffix)
    ∧ (∀ a, managerStartupOps.count
          (FileOp.openStream (Dest.agg a) false) = 1
        ∧ managerTeardownOps.count (FileOp.closeStream (Dest.agg a)) = 1) := by
  refine ⟨?_, ?_, ?_, ?_, ?_, ?_, ?_⟩
  · intro d app hmem
    cases hA : loglevelFile msg.loglevel with
    | none =>
      simp [processFileOps, hA] at hmem
      exact ⟨hmem.2, hmem.1⟩
    | some a =>
      simp [processFileOps, hA] at hmem
      exact ⟨hmem.2, hmem.1⟩
  · intro d hmem
    cases hA : loglevelFile msg.loglevel with
    | none => simp [processFileOps, hA] at hmem; exact hmem
    | some a => simp [processFileOps, hA] at hmem; exact hmem
  · cases hA : loglevelFile msg.loglevel with
    | none => simp [processFileOps, hA, writesFlushed]
    | some a => simp [processFileOps, hA, writesFlushed]
  · intro d s hmem
    cases hA : loglevelFile msg.loglevel with
    | none =>
      simp [processFileOps, hA] at hmem
      exact ⟨moduleFileLine ts msg, hmem.2⟩
    | some a =>
      simp [processFileOps, hA] at hmem
      rcases hmem with ⟨_, hs⟩ | ⟨_, hs⟩
      · exact ⟨moduleFileLine ts msg, hs⟩
      · exact ⟨aggFileLine ts msg, hs⟩
  · cases hA : loglevelFile msg.loglevel with
    | none =>
      simp [processFileOps, hA, applyFileOps, applyFileOp]
    | some a =>
      simp [processFileOps, hA, applyFileOps, applyFileOp,
        Function.update_apply]
  · intro d
    cases hA : loglevelFile msg.loglevel with
    | none =>
      by_cases hd : d = Dest.moduleFile (moduleLogPath msg.log_module)
      · subst hd
        exact ⟨moduleFileLine ts msg ++ "\n",
          by simp [processFileOps, hA, applyFileOps, applyFileOp]⟩
      · refine ⟨"", ?_⟩
        simp [processFileOps, hA, applyFileOps, applyFileOp,
          Function.update_apply, hd, String.append_empty]
    | some a =>
      by_cases hd : d = Dest.moduleFile (moduleLogPath msg.log_module)
      · subst hd
        exact ⟨moduleFileLine ts msg ++ "\n",
          by simp [processFileOps, hA, applyFileOps, applyFileOp,
            Function.update_apply]⟩
      · by_cases hda : d = Dest.agg a
        · subst hda
          exact ⟨aggFileLine ts msg ++ "\n",
            by simp [processFileOps, hA, applyFileOps, applyFileOp,
              Function.update_apply]⟩
        · refine ⟨"", ?_⟩
          simp [processFileOps, hA, applyFileOps, applyFileOp,
            Function.update_apply, hd, hda, String.append_empty]
  · intro a
    cases a <;> exact ⟨by decide, by decide⟩

/-- C9 witness: `file_write_discipline` applied to a concrete INFO message:
the one stream its operations open is the per-module file, in append
mode. -/
theorem file_write_discipline_witness :
    true = true ∧
      Dest.moduleFile (moduleLogPath "m") = Dest.moduleFile (moduleLogPath "m") :=
  (file_write_discipline "t" (Message.mk "m" LogLevel.INFO "x" [])
      (fun _ => "")).1 (Dest.moduleFile (moduleLogPath "m")) true (by decide)

end SampLogCore
